import Mathlib

/-!
Verification development for the maintenance dashboard (`siuu.py`).

The program loads three CSV tables (failure events, inter-failure times,
forecasts), normalizes machine names to upper case, applies a cascading
cluster/machine filter, and computes summary metrics. We embed the
dataframe-level operations of `load_data` and `main` as executable Lean
functions over explicit row lists and prove the specified properties.

Modelling conventions:
* A raw CSV cell of a string column is `Option String` (`none` = NaN).
* A raw cell of a numeric column is `RawNum`: either missing, a number, or
  a non-numeric text (one that `pd.to_numeric(errors="coerce")` cannot
  convert).  Numbers are rationals.
* pandas `astype(str)` maps NaN to the literal string "nan"; `.str.upper()`
  is ASCII upper-casing; `.str.strip()` removes surrounding whitespace.
  These are embedded as `astypeStr`, `pyUpper`, `pyStrip`.
* A dataframe is a list of row structures together with Boolean flags for
  the presence of the optional columns; accessing an absent column
  (a Python `KeyError`) is modelled with `Except String`.
* pandas `unique()` keeps the first occurrence (`uniqueList`);
  `value_counts()` counts occurrences and sorts by descending count
  (`valueCounts` composed with a stable `insertionSort`); `mode()` returns
  the most frequent values sorted ascending (`modeList`); a series `mean()`
  skips missing values and is undefined (NaN) when none remain, which the
  dashboard renders as "Sin datos", so the mean metric is an `Option ℚ`.
-/

namespace Mantenimiento

/-- ASCII upper-casing of a string, as in pandas `.str.upper()`. -/
def pyUpper (s : String) : String := ⟨s.data.map Char.toUpper⟩

/-- Whitespace recognizer used by `.str.strip()`. -/
def isSpaceB (c : Char) : Bool :=
  c = ' ' || c = '\t' || c = '\n' || c = '\r'

/-- Strip surrounding whitespace, as in pandas `.str.strip()`. -/
def pyStrip (s : String) : String :=
  ⟨((s.data.dropWhile isSpaceB).reverse.dropWhile isSpaceB).reverse⟩

/-- Lexicographic comparison of character lists by code point, the order
Python's `sorted` uses on strings. -/
def lexLe : List Char → List Char → Bool
  | [], _ => true
  | _ :: _, [] => false
  | x :: xs, y :: ys =>
    if x.val < y.val then true
    else if y.val < x.val then false
    else lexLe xs ys

/-- String order used by `sorted(...)`. -/
def strLe (a b : String) : Prop := lexLe a.data b.data = true

instance : DecidableRel strLe := fun a b =>
  inferInstanceAs (Decidable (lexLe a.data b.data = true))

/-- pandas `astype(str)` on a cell: NaN becomes the literal string "nan". -/
def astypeStr : Option String → String
  | none => "nan"
  | some s => s

/-- Load-time machine normalization: `astype(str).str.upper()`
(lines 60/67/81 of `siuu.py`).  A missing machine cell becomes the literal
string "NAN". -/
def normMaquina (c : Option String) : String := pyUpper (astypeStr c)

/-- A raw numeric cell: missing, convertible, or text that
`pd.to_numeric(errors="coerce")` cannot convert to a number. -/
inductive RawNum where
  | missing : RawNum
  | val (q : ℚ) : RawNum
  | invalid (s : String) : RawNum
deriving DecidableEq, Repr

/-- `pd.to_numeric(errors="coerce")` on one cell: a cell that cannot be
converted becomes missing; the conversion never fails. -/
def toNumeric : RawNum → Option ℚ
  | .val q => some q
  | _ => none

/-- A raw row of TABLA 1 (after the column renames of lines 54-58). -/
structure RawRow1 where
  maquina : Option String
  turno : Option String
  eqType : Option String
  cluster : Option String
deriving DecidableEq, Repr

/-- Raw TABLA 1 with presence flags for its columns. -/
structure RawTabla1 where
  hasMaquina : Bool
  hasCluster : Bool
  hasTurno : Bool
  hasEqType : Bool
  rows : List RawRow1
deriving DecidableEq, Repr

/-- A loaded row of TABLA 1: the machine name is normalized to a plain
string (never missing, since `astype(str)` stringifies NaN). -/
structure Row1 where
  maquina : String
  turno : Option String
  eqType : Option String
  cluster : Option String
deriving DecidableEq, Repr

/-- Loaded TABLA 1. -/
structure Tabla1 where
  hasCluster : Bool
  hasTurno : Bool
  hasEqType : Bool
  rows : List Row1
deriving DecidableEq, Repr

/-- A raw row of TABLA 2 or TABLA 3: machine cell plus the two numeric
columns (`Indice_Tiempo` and `Tiempo_Entre_Fallas` resp. `Forecast`). -/
structure RawRowS where
  maquina : Option String
  idx : RawNum
  valor : RawNum
deriving DecidableEq, Repr

/-- Raw TABLA 2 / TABLA 3 with the optional-machine-column flag. -/
structure RawTablaS where
  hasMaquina : Bool
  rows : List RawRowS
deriving DecidableEq, Repr

/-- A loaded row of TABLA 2 / TABLA 3: numeric cells are `none` when
missing or when coercion failed. -/
structure RowS where
  maquina : String
  idx : Option ℚ
  valor : Option ℚ
deriving DecidableEq, Repr

/-- Loaded TABLA 2 / TABLA 3. -/
structure TablaS where
  hasMaquina : Bool
  rows : List RowS
deriving DecidableEq, Repr

/-- Load one TABLA 1 row (line 60: normalize the machine name). -/
def loadRow1 (r : RawRow1) : Row1 :=
  ⟨normMaquina r.maquina, r.turno, r.eqType, r.cluster⟩

/-- Load TABLA 1 (lines 50-60).  Line 60 reads `tabla1["Maquina"]`
unconditionally, so a missing machine column raises a `KeyError`. -/
def loadTabla1 (r : RawTabla1) : Except String Tabla1 :=
  if r.hasMaquina = true then
    .ok ⟨r.hasCluster, r.hasTurno, r.hasEqType, r.rows.map loadRow1⟩
  else .error "KeyError: Maquina"

/-- Load one TABLA 2/3 row: the machine name is normalized only when the
machine column exists (lines 66-67 and 80-81); the numeric columns are
coerced with `to_numeric(errors="coerce")` (lines 69-74 and 83-88). -/
def loadRowS (has : Bool) (r : RawRowS) : RowS :=
  ⟨if has then normMaquina r.maquina else "", toNumeric r.idx, toNumeric r.valor⟩

/-- Load TABLA 2 or TABLA 3 (lines 63-74 / 77-88); this never fails. -/
def loadTablaS (r : RawTablaS) : TablaS :=
  ⟨r.hasMaquina, r.rows.map (loadRowS r.hasMaquina)⟩

/-- Helper for `uniqueList`: keep the elements not seen yet, first
occurrence first. -/
def uniqueAux (seen : List String) : List String → List String
  | [] => []
  | x :: xs => if x ∈ seen then uniqueAux seen xs else x :: uniqueAux (x :: seen) xs

/-- pandas `unique()`: distinct values in order of first occurrence. -/
def uniqueList (l : List String) : List String := uniqueAux [] l

/-- Cluster options (lines 119-122):
`sorted(tabla1["Cluster"].dropna().astype(str).unique())` when the cluster
column exists, else the empty list. -/
def clustersDisp (t1 : Tabla1) : List String :=
  if t1.hasCluster = true then
    List.insertionSort strLe (uniqueList (t1.rows.filterMap (fun r => r.cluster)))
  else []

/-- TABLA 1 machines for the selector (lines 130-133): all machines when
the selection is "Todos" or there is no cluster column, else the machines
of the rows whose stringified cluster equals the selection.  `dropna()`
is the identity here because the loaded machine column has no missing
values. -/
def maqsT1 (t1 : Tabla1) (clusterSel : String) : List String :=
  if clusterSel = "Todos" ∨ t1.hasCluster = false then
    uniqueList (t1.rows.map (fun r => r.maquina))
  else
    uniqueList ((t1.rows.filter (fun r => astypeStr r.cluster == clusterSel)).map
      (fun r => r.maquina))

/-- TABLA 2/3 machines for the selector (lines 135-136):
`tabla["Maquina"].dropna().unique()`.  The access is unconditional, so a
missing machine column raises a `KeyError`. -/
def maqsS (t : TablaS) : Except String (List String) :=
  if t.hasMaquina = true then
    .ok (uniqueList (t.rows.map (fun r => r.maquina)))
  else .error "KeyError: Maquina"

/-- Machine selector options (line 138):
`sorted(set(maqs_t1) | set(maqs_t2) | set(maqs_t3))`. -/
def maquinasOptions (m1 m2 m3 : List String) : List String :=
  List.insertionSort strLe (uniqueList (m1 ++ m2 ++ m3))

/-- Machines of the cluster-filtered TABLA 1 (line 153):
`t1["Maquina"].dropna().unique()`. -/
def maquinasCluster (t1f : List Row1) : List String :=
  uniqueList (t1f.map (fun r => r.maquina))

/-- Cluster filter stage (lines 151-156): when a specific cluster is
selected and TABLA 1 has cluster data, restrict TABLA 1 to that cluster
and TABLAS 2/3 to the machines of the restricted TABLA 1. -/
def clusterStage (t1 : Tabla1) (t2rows t3rows : List RowS) (clusterSel : String) :
    List Row1 × List RowS × List RowS :=
  if clusterSel ≠ "Todos" ∧ t1.hasCluster = true then
    let t1f := t1.rows.filter (fun r => astypeStr r.cluster == clusterSel)
    let mc := maquinasCluster t1f
    (t1f, t2rows.filter (fun r => decide (r.maquina ∈ mc)),
      t3rows.filter (fun r => decide (r.maquina ∈ mc)))
  else (t1.rows, t2rows, t3rows)

/-- Machine filter stage (lines 159-162): when a specific machine is
selected, restrict all three tables to rows with that exact machine. -/
def machineStage (f : List Row1 × List RowS × List RowS) (maquinaSel : String) :
    List Row1 × List RowS × List RowS :=
  if maquinaSel ≠ "Todas" then
    (f.1.filter (fun r => r.maquina == maquinaSel),
      f.2.1.filter (fun r => r.maquina == maquinaSel),
      f.2.2.filter (fun r => r.maquina == maquinaSel))
  else f

/-- The whole filter pipeline (lines 146-162). -/
def applyFilters (t1 : Tabla1) (t2 t3 : TablaS) (clusterSel maquinaSel : String) :
    List Row1 × List RowS × List RowS :=
  machineStage (clusterStage t1 t2.rows t3.rows clusterSel) maquinaSel

/-- Valid machine names for the global top-machine KPI (lines 176-179):
strip, then keep the values that are non-empty and whose upper-casing is
not the null sentinel "NAN". -/
def cleanMachines (rows : List Row1) : List String :=
  ((rows.map (fun r => r.maquina)).map pyStrip).filter
    (fun s => decide (s ≠ "" ∧ pyUpper s ≠ "NAN"))

/-- Occurrence counts per distinct value, in order of first occurrence
(the grouping half of `value_counts()`). -/
def valueCounts (l : List String) : List (String × Nat) :=
  (uniqueList l).map (fun v => (v, l.count v))

/-- Descending-count order on counted pairs. -/
def cntGe (a b : String × Nat) : Prop := b.2 ≤ a.2

instance : DecidableRel cntGe := fun a b =>
  inferInstanceAs (Decidable (b.2 ≤ a.2))

instance : IsTotal (String × Nat) cntGe :=
  ⟨fun a b => Nat.le_total b.2 a.2⟩

instance : IsTrans (String × Nat) cntGe :=
  ⟨fun _ _ _ hab hbc => Nat.le_trans hbc hab⟩

/-- `value_counts()` of the valid machine names (line 181): counts sorted
by descending count. -/
def conteoGlobal (rows : List Row1) : List (String × Nat) :=
  List.insertionSort cntGe (valueCounts (cleanMachines rows))

/-- Maximum of a list of naturals (`Series.max()`), 0 on the empty list. -/
def maxNat (l : List Nat) : Nat := l.foldl max 0

/-- KPI 2 (lines 175-190): the globally most frequent machine and its
count; `none` renders as "Sin datos".  `idxmax()` on the descending-sorted
counts is the head; the count shown is `conteo.max()`. -/
def kpiTopMachine (rows : List Row1) : Option (String × Nat) :=
  if rows.isEmpty then none
  else
    match conteoGlobal rows with
    | [] => none
    | top :: rest => some (top.1, maxNat ((top :: rest).map Prod.snd))

/-- KPI 3 (lines 192-208): the mean of `Tiempo_Entre_Fallas` over the
filtered TABLA 2.  `none` renders as "Sin datos": the code shows a number
only when the table is non-empty and the mean is not NaN, and the pandas
mean skips missing values and is NaN when none remain. -/
def promTiempo (rows : List RowS) : Option ℚ :=
  if rows.isEmpty then none
  else
    let vals := rows.filterMap (fun r => r.valor)
    if vals.isEmpty then none
    else some (vals.sum / (vals.length : ℚ))

/-- Stringified cluster values of the filtered TABLA 1
(`t1["Cluster"].astype(str)`, line 223). -/
def clusterVals (t1f : List Row1) : List String :=
  t1f.map (fun r => astypeStr r.cluster)

/-- Largest occurrence count in a list of strings. -/
def maxCount (l : List String) : Nat :=
  maxNat ((uniqueList l).map (fun v => l.count v))

/-- pandas `mode()`: the values of maximal count, sorted ascending. -/
def modeList (l : List String) : List String :=
  List.insertionSort strLe ((uniqueList l).filter (fun s => l.count s == maxCount l))

/-- KPI 4 (lines 215-229): the contextual cluster label. -/
def clusterCat (clusterSel maquinaSel : String) (hasCluster : Bool)
    (t1f : List Row1) : String :=
  if clusterSel ≠ "Todos" then clusterSel
  else if maquinaSel = "Todas" then "Varios"
  else if hasCluster = true ∧ t1f ≠ [] then
    match modeList (clusterVals t1f) with
    | [] => "Sin datos"
    | m :: _ => m
  else "Sin datos"

/-- Shift / EQ-type bar data (lines 242-248 and 267-273): counts of the
non-missing categorical values, descending; `none` when the column is
absent or the filtered table is empty.  `value_counts` drops NaN. -/
def catCounts (hasCol : Bool) (vals : List (Option String)) (t1f : List Row1) :
    Option (List (String × Nat)) :=
  if hasCol = true ∧ t1f ≠ [] then
    some (List.insertionSort cntGe (valueCounts (vals.filterMap id)))
  else none

/-- Rendering outcome of the time-series section (lines 298-331). -/
inductive SerieOut where
  | suppressed : SerieOut
  | sinDatos : SerieOut
  | chart (pts : List (Option ℚ × ℚ × String)) : SerieOut
deriving DecidableEq, Repr

/-- Actual series (lines 306-309): filtered TABLA 2 rows with a
non-missing value, tagged "Real". -/
def serieReal (t2f : List RowS) : List (Option ℚ × ℚ × String) :=
  t2f.filterMap (fun r => r.valor.map (fun v => (r.idx, v, "Real")))

/-- Forecast series (lines 313-316): filtered TABLA 3 rows with a
non-missing forecast, tagged "Prediccion". -/
def serieFore (t3f : List RowS) : List (Option ℚ × ℚ × String) :=
  t3f.filterMap (fun r => r.valor.map (fun v => (r.idx, v, "Prediccion")))

/-- Time-series section (lines 298-331): suppressed with an instructional
message when a specific cluster is selected but no specific machine;
otherwise a warning when the filtered TABLA 2 is empty; otherwise the
chart of the concatenated series. -/
def serieTiempo (clusterSel maquinaSel : String) (t2f t3f : List RowS) : SerieOut :=
  if clusterSel ≠ "Todos" ∧ maquinaSel = "Todas" then .suppressed
  else if t2f.isEmpty then .sinDatos
  else .chart (serieReal t2f ++ (if t3f.isEmpty then [] else serieFore t3f))

/-- Box-plot data (line 342): machine/value pairs of the filtered TABLA 2
after dropping rows with a missing value. -/
def boxData (t2f : List RowS) : List (String × ℚ) :=
  t2f.filterMap (fun r => r.valor.map (fun v => (r.maquina, v)))

/-- Everything `main` computes for rendering. -/
structure Output where
  clusters : List String
  opciones : List String
  totalFallas : Nat
  topMaquina : Option (String × Nat)
  promedio : Option ℚ
  clusterCategorico : String
  turnos : Option (List (String × Nat))
  eqTypes : Option (List (String × Nat))
  serie : SerieOut
  box : Option (List (String × ℚ))

/-- The full dashboard pipeline of `main` (lines 109-353): load the three
tables, build the selector options, filter, and compute every rendered
value.  An uncaught `KeyError` is an `Except.error`. -/
def dashboard (rt1 : RawTabla1) (rt2 rt3 : RawTablaS)
    (clusterSel maquinaSel : String) : Except String Output :=
  match loadTabla1 rt1 with
  | .error e => .error e
  | .ok tabla1 =>
    let tabla2 := loadTablaS rt2
    let tabla3 := loadTablaS rt3
    match maqsS tabla2 with
    | .error e => .error e
    | .ok m2 =>
      match maqsS tabla3 with
      | .error e => .error e
      | .ok m3 =>
        let m1 := maqsT1 tabla1 clusterSel
        let f := applyFilters tabla1 tabla2 tabla3 clusterSel maquinaSel
        .ok
          { clusters := clustersDisp tabla1
            opciones := maquinasOptions m1 m2 m3
            totalFallas := if f.1.isEmpty then 0 else f.1.length
            topMaquina := kpiTopMachine tabla1.rows
            promedio := promTiempo f.2.1
            clusterCategorico := clusterCat clusterSel maquinaSel tabla1.hasCluster f.1
            turnos := catCounts tabla1.hasTurno (f.1.map (fun r => r.turno)) f.1
            eqTypes := catCounts tabla1.hasEqType (f.1.map (fun r => r.eqType)) f.1
            serie := serieTiempo clusterSel maquinaSel f.2.1 f.2.2
            box := if f.2.1.isEmpty then none else some (boxData f.2.1) }

/-! Helper lemmas about `uniqueList`, `maxNat`, `valueCounts` and the
descending sort. -/

theorem mem_uniqueAux {a : String} :
    ∀ {l seen : List String}, a ∈ uniqueAux seen l ↔ a ∈ l ∧ a ∉ seen := by
  intro l
  induction l with
  | nil => intro seen; simp [uniqueAux]
  | cons x xs ih =>
    intro seen
    by_cases hx : x ∈ seen
    · rw [uniqueAux, if_pos hx, ih]
      constructor
      · rintro ⟨h1, h2⟩; exact ⟨List.mem_cons_of_mem _ h1, h2⟩
      · rintro ⟨h1, h2⟩
        rcases List.mem_cons.mp h1 with h | h
        · exact absurd (h ▸ hx) h2
        · exact ⟨h, h2⟩
    · rw [uniqueAux, if_neg hx]
      simp only [List.mem_cons, ih]
      constructor
      · rintro (h | ⟨h1, h2⟩)
        · exact ⟨Or.inl h, fun hs => hx (h ▸ hs)⟩
        · exact ⟨Or.inr h1, fun hs => h2 (Or.inr hs)⟩
      · rintro ⟨h | h, h2⟩
        · exact Or.inl h
        · by_cases hax : a = x
          · exact Or.inl hax
          · exact Or.inr ⟨h, fun hs => hs.elim hax h2⟩

theorem mem_uniqueList {a : String} {l : List String} :
    a ∈ uniqueList l ↔ a ∈ l := by
  rw [uniqueList, mem_uniqueAux]; simp

theorem nodup_uniqueAux :
    ∀ (l seen : List String), (uniqueAux seen l).Nodup := by
  intro l
  induction l with
  | nil => intro seen; simp [uniqueAux]
  | cons x xs ih =>
    intro seen
    by_cases hx : x ∈ seen
    · rw [uniqueAux, if_pos hx]; exact ih seen
    · rw [uniqueAux, if_neg hx]
      refine List.nodup_cons.mpr ⟨fun hmem => ?_, ih (x :: seen)⟩
      exact (mem_uniqueAux.mp hmem).2 (List.mem_cons_self x seen)

theorem nodup_uniqueList (l : List String) : (uniqueList l).Nodup :=
  nodup_uniqueAux l []

theorem uniqueList_perm_of_perm {l1 l2 : List String} (h : l1.Perm l2) :
    (uniqueList l1).Perm (uniqueList l2) := by
  refine (List.perm_ext_iff_of_nodup (nodup_uniqueList l1) (nodup_uniqueList l2)).mpr ?_
  intro a
  rw [mem_uniqueList, mem_uniqueList]
  exact h.mem_iff

theorem uniqueList_eq_nil_iff {l : List String} : uniqueList l = [] ↔ l = [] := by
  constructor
  · intro h
    cases l with
    | nil => rfl
    | cons x xs =>
      exfalso
      have hx : x ∈ uniqueList (x :: xs) := mem_uniqueList.mpr (List.mem_cons_self x xs)
      rw [h] at hx
      exact List.not_mem_nil x hx
  · intro h; subst h; rfl

theorem foldl_max_init (l : List Nat) (a : Nat) :
    l.foldl max a = max a (l.foldl max 0) := by
  induction l generalizing a with
  | nil => simp
  | cons x xs ih =>
    simp only [List.foldl_cons]
    rw [ih (max a x), ih (max 0 x), Nat.zero_max, Nat.max_assoc]

theorem maxNat_cons (x : Nat) (xs : List Nat) :
    maxNat (x :: xs) = max x (maxNat xs) := by
  simp only [maxNat, List.foldl_cons, Nat.zero_max]
  exact foldl_max_init xs x

theorem le_maxNat {a : Nat} {l : List Nat} (h : a ∈ l) : a ≤ maxNat l := by
  induction l with
  | nil => cases h
  | cons x xs ih =>
    rw [maxNat_cons]
    rcases List.mem_cons.mp h with rfl | h
    · exact Nat.le_max_left _ _
    · exact Nat.le_trans (ih h) (Nat.le_max_right _ _)

theorem maxNat_mem_or (l : List Nat) : maxNat l ∈ l ∨ maxNat l = 0 := by
  induction l with
  | nil => exact Or.inr rfl
  | cons x xs ih =>
    rw [maxNat_cons]
    rcases Nat.le_total (maxNat xs) x with hle | hle
    · rw [Nat.max_eq_left hle]; exact Or.inl (List.mem_cons_self x xs)
    · rw [Nat.max_eq_right hle]
      rcases ih with h | h
      · exact Or.inl (List.mem_cons_of_mem _ h)
      · rw [h]; rcases Nat.eq_zero_of_le_zero (h ▸ hle) with rfl
        exact Or.inl (List.mem_cons_self 0 xs)

theorem maxNat_perm {l1 l2 : List Nat} (h : l1.Perm l2) : maxNat l1 = maxNat l2 := by
  induction h with
  | nil => rfl
  | cons x _ ih => rw [maxNat_cons, maxNat_cons, ih]
  | swap x y l =>
    rw [maxNat_cons, maxNat_cons, maxNat_cons, maxNat_cons,
      ← Nat.max_assoc, ← Nat.max_assoc, Nat.max_comm y x]
  | trans _ _ ih1 ih2 => rw [ih1, ih2]

theorem mem_valueCounts {p : String × Nat} {l : List String} :
    p ∈ valueCounts l ↔ p.1 ∈ l ∧ p.2 = l.count p.1 := by
  cases p with
  | mk v c =>
    simp only [valueCounts, List.mem_map, Prod.mk.injEq]
    constructor
    · rintro ⟨w, hw, rfl, rfl⟩
      exact ⟨mem_uniqueList.mp hw, rfl⟩
    · rintro ⟨hv, rfl⟩
      exact ⟨v, mem_uniqueList.mpr hv, rfl, rfl⟩

theorem valueCounts_perm {l1 l2 : List String} (h : l1.Perm l2) :
    (valueCounts l1).Perm (valueCounts l2) := by
  have hc : (fun v => (v, l1.count v)) = (fun v => (v, l2.count v)) := by
    funext v; rw [h.count_eq]
  unfold valueCounts
  rw [hc]
  exact (uniqueList_perm_of_perm h).map _

theorem valueCounts_eq_nil_iff {l : List String} : valueCounts l = [] ↔ l = [] := by
  rw [valueCounts, List.map_eq_nil_iff, uniqueList_eq_nil_iff]

theorem head_insertionSort_max {ps : List (String × Nat)} {top : String × Nat}
    {rest : List (String × Nat)}
    (h : List.insertionSort cntGe ps = top :: rest) :
    ∀ p ∈ ps, p.2 ≤ top.2 := by
  intro p hp
  have hmem : p ∈ top :: rest := by
    rw [← h]
    exact (List.mem_insertionSort cntGe).mpr hp
  rcases List.mem_cons.mp hmem with rfl | hm
  · exact Nat.le_refl _
  · have hs : List.Sorted cntGe (top :: rest) := by
      rw [← h]; exact List.sorted_insertionSort cntGe ps
    exact List.rel_of_sorted_cons hs p hm

theorem count_le_maxCount (l : List String) (x : String) :
    l.count x ≤ maxCount l := by
  by_cases hx : x ∈ l
  · exact le_maxNat (List.mem_map.mpr ⟨x, mem_uniqueList.mpr hx, rfl⟩)
  · rw [List.count_eq_zero.mpr hx]; exact Nat.zero_le _

theorem modeList_spec {l : List String} (h : l ≠ []) :
    ∃ m rest, modeList l = m :: rest ∧ m ∈ l ∧
      ∀ x, l.count x ≤ l.count m := by
  have hmax : ∃ v ∈ uniqueList l, l.count v = maxCount l := by
    rcases maxNat_mem_or ((uniqueList l).map (fun v => l.count v)) with hm | hm
    · rcases List.mem_map.mp hm with ⟨v, hv, hcv⟩
      exact ⟨v, hv, hcv⟩
    · exfalso
      rcases List.exists_mem_of_ne_nil l h with ⟨x, hx⟩
      have h1 : 0 < l.count x := List.count_pos_iff.mpr hx
      have h2 : l.count x ≤ maxCount l := count_le_maxCount l x
      rw [maxCount] at h2
      omega
  rcases hmax with ⟨v, hv, hcv⟩
  have hvf : v ∈ (uniqueList l).filter (fun s => l.count s == maxCount l) :=
    List.mem_filter.mpr ⟨hv, by simp [hcv]⟩
  have hne : modeList l ≠ [] := by
    intro hnil
    have : v ∈ modeList l := (List.mem_insertionSort strLe).mpr hvf
    rw [hnil] at this
    exact List.not_mem_nil v this
  rcases List.exists_cons_of_ne_nil hne with ⟨m, rest, hm⟩
  have hmem : m ∈ (uniqueList l).filter (fun s => l.count s == maxCount l) := by
    have : m ∈ modeList l := hm ▸ List.mem_cons_self m rest
    exact (List.mem_insertionSort strLe).mp this
  rcases List.mem_filter.mp hmem with ⟨hmu, hmc⟩
  have hmcount : l.count m = maxCount l := by simpa using hmc
  refine ⟨m, rest, hm, mem_uniqueList.mp hmu, fun x => ?_⟩
  rw [hmcount]
  exact count_le_maxCount l x

/-! Claim theorems. -/

/-- C1: when a specific cluster (not "Todos") is selected and TABLA 1 has
a cluster column, the machine set used to restrict TABLAS 2 and 3 is
exactly the set of distinct machine values of the cluster-filtered
TABLA 1, and the filtered TABLAS 2 and 3 contain exactly the rows whose
machine belongs to that set. -/
theorem C1_cluster_filter_consistency (t1 : Tabla1) (t2rows t3rows : List RowS)
    (cs : String) (hcs : cs ≠ "Todos") (hc : t1.hasCluster = true) :
    (∀ m, m ∈ maquinasCluster (t1.rows.filter (fun r => astypeStr r.cluster == cs)) ↔
        ∃ r ∈ t1.rows.filter (fun r => astypeStr r.cluster == cs), r.maquina = m) ∧
    (clusterStage t1 t2rows t3rows cs).1 =
        t1.rows.filter (fun r => astypeStr r.cluster == cs) ∧
    (∀ r, r ∈ (clusterStage t1 t2rows t3rows cs).2.1 ↔ r ∈ t2rows ∧
        r.maquina ∈ maquinasCluster (t1.rows.filter (fun r => astypeStr r.cluster == cs))) ∧
    (∀ r, r ∈ (clusterStage t1 t2rows t3rows cs).2.2 ↔ r ∈ t3rows ∧
        r.maquina ∈ maquinasCluster (t1.rows.filter (fun r => astypeStr r.cluster == cs))) := by
  refine ⟨?_, ?_, ?_, ?_⟩
  · intro m
    simp [maquinasCluster, mem_uniqueList, List.mem_map]
  · simp [clusterStage, hcs, hc]
  · intro r
    simp [clusterStage, hcs, hc, List.mem_filter]
  · intro r
    simp [clusterStage, hcs, hc, List.mem_filter]

/-- C1 witness: a concrete instantiation.  Table 1 has machines A and B in
cluster X and C in cluster Y; selecting cluster X restricts Table 2 to the
rows of machines A and B. -/
theorem C1_cluster_filter_consistency_witness :
    (⟨"C", some 1, some 3⟩ : RowS) ∈ (clusterStage ⟨true, true, true,
        [⟨"A", none, none, some "X"⟩, ⟨"B", none, none, some "X"⟩,
         ⟨"C", none, none, some "Y"⟩]⟩
        [⟨"A", some 1, some 2⟩, ⟨"C", some 1, some 3⟩]
        [] "X").2.1 ↔
      (⟨"C", some 1, some 3⟩ : RowS) ∈
          [(⟨"A", some 1, some 2⟩ : RowS), ⟨"C", some 1, some 3⟩] ∧
        (⟨"C", some 1, some 3⟩ : RowS).maquina ∈ maquinasCluster
          ((⟨true, true, true,
            [⟨"A", none, none, some "X"⟩, ⟨"B", none, none, some "X"⟩,
             ⟨"C", none, none, some "Y"⟩]⟩ : Tabla1).rows.filter
            (fun r => astypeStr r.cluster == "X")) :=
  (C1_cluster_filter_consistency _ _ _ "X" (by decide) rfl).2.2.1
    ⟨"C", some 1, some 3⟩

/-- C2: whenever a specific machine (not "Todas") is selected, every row of
each of the three filtered tables has exactly that machine value, and each
filtered table only narrows the corresponding cluster-stage table. -/
theorem C2_machine_filter_exact (t1 : Tabla1) (t2 t3 : TablaS) (cs ms : String)
    (hms : ms ≠ "Todas") :
    (∀ r ∈ (applyFilters t1 t2 t3 cs ms).1, r.maquina = ms) ∧
    (∀ r ∈ (applyFilters t1 t2 t3 cs ms).2.1, r.maquina = ms) ∧
    (∀ r ∈ (applyFilters t1 t2 t3 cs ms).2.2, r.maquina = ms) ∧
    (applyFilters t1 t2 t3 cs ms).1 ⊆ (clusterStage t1 t2.rows t3.rows cs).1 ∧
    (applyFilters t1 t2 t3 cs ms).2.1 ⊆ (clusterStage t1 t2.rows t3.rows cs).2.1 ∧
    (applyFilters t1 t2 t3 cs ms).2.2 ⊆ (clusterStage t1 t2.rows t3.rows cs).2.2 := by
  unfold applyFilters machineStage
  rw [if_pos hms]
  refine ⟨?_, ?_, ?_, ?_, ?_, ?_⟩
  · intro r hr
    simpa using (List.mem_filter.mp hr).2
  · intro r hr
    simpa using (List.mem_filter.mp hr).2
  · intro r hr
    simpa using (List.mem_filter.mp hr).2
  · exact (List.filter_sublist _).subset
  · exact (List.filter_sublist _).subset
  · exact (List.filter_sublist _).subset

/-- C2 witness: a concrete instantiation with cluster X and machine A
selected. -/
theorem C2_machine_filter_exact_witness :
    (⟨"A", some 1, some 2⟩ : RowS).maquina = "A" :=
  (C2_machine_filter_exact ⟨true, true, true,
      [⟨"A", none, none, some "X"⟩, ⟨"B", none, none, some "X"⟩]⟩
      ⟨true, [⟨"A", some 1, some 2⟩, ⟨"B", some 1, some 3⟩]⟩
      ⟨true, []⟩ "X" "A" (by decide)).2.1 ⟨"A", some 1, some 2⟩ (by decide)

/-- C4 counterexample: the claim says the whole machine-selector option
set is scoped to the selected cluster's machines, but with Table 1 holding
only machine A in cluster X, a Table 2 that mentions machine B still puts
B among the options when cluster X is selected, even though B is not a
machine of the cluster-filtered Table 1. -/
theorem C4_counterexample :
    maqsS (loadTablaS ⟨true, [⟨some "b", RawNum.missing, RawNum.missing⟩]⟩) =
      Except.ok ["B"] ∧
    "B" ∈ maquinasOptions
        (maqsT1 ⟨true, true, true, [⟨"A", none, none, some "X"⟩]⟩ "X") ["B"] [] ∧
    maquinasCluster ((⟨true, true, true,
        [⟨"A", none, none, some "X"⟩]⟩ : Tabla1).rows.filter
        (fun r => astypeStr r.cluster == "X")) = ["A"] := by
  refine ⟨rfl, by decide, by decide⟩

/-- C4 amended: the machine selector's option set is the union of the
TABLA 1 machine set (which alone is scoped to the selected cluster) with
the full machine sets of TABLAS 2 and 3; the TABLA 2/3 contributions are
not scoped by cluster. -/
theorem C4_options_union (t1 : Tabla1) (t2 t3 : TablaS) (cs : String)
    (m2 m3 : List String) (hm2 : maqsS t2 = Except.ok m2)
    (hm3 : maqsS t3 = Except.ok m3) :
    (∀ m, m ∈ maquinasOptions (maqsT1 t1 cs) m2 m3 ↔
        m ∈ maqsT1 t1 cs ∨ (∃ r ∈ t2.rows, r.maquina = m) ∨
          (∃ r ∈ t3.rows, r.maquina = m)) ∧
    (cs ≠ "Todos" → t1.hasCluster = true →
      ∀ m, m ∈ maqsT1 t1 cs ↔
        ∃ r ∈ t1.rows.filter (fun r => astypeStr r.cluster == cs), r.maquina = m) := by
  have h2 : t2.hasMaquina = true := by
    by_contra hfalse
    rw [maqsS, if_neg hfalse] at hm2
    cases hm2
  have h3 : t3.hasMaquina = true := by
    by_contra hfalse
    rw [maqsS, if_neg hfalse] at hm3
    cases hm3
  rw [maqsS, if_pos h2] at hm2
  rw [maqsS, if_pos h3] at hm3
  cases hm2
  cases hm3
  constructor
  · intro m
    simp [maquinasOptions, List.mem_insertionSort, mem_uniqueList, List.mem_map]
  · intro hcs hc m
    rw [maqsT1, if_neg (by simp [hcs, hc])]
    simp [mem_uniqueList, List.mem_map]

/-- C4 amended witness: a concrete instantiation of the union
characterization, with cluster X selected. -/
theorem C4_options_union_witness :
    "B" ∈ maquinasOptions
        (maqsT1 ⟨true, true, true, [⟨"A", none, none, some "X"⟩]⟩ "X") ["B"] [] ↔
      "B" ∈ maqsT1 ⟨true, true, true, [⟨"A", none, none, some "X"⟩]⟩ "X" ∨
        (∃ r ∈ (⟨true, [⟨"B", none, none⟩]⟩ : TablaS).rows, r.maquina = "B") ∨
        (∃ r ∈ (⟨true, []⟩ : TablaS).rows, r.maquina = "B") :=
  (C4_options_union _ ⟨true, [⟨"B", none, none⟩]⟩ ⟨true, []⟩ "X" ["B"] []
    rfl rfl).1 "B"

/-- C8: the interval time-series chart is suppressed (an instructional
message is shown) exactly when a specific cluster is selected while the
machine selection is "Todas"; in every other state the chart is rendered
whenever the filtered TABLA 2 is non-empty, and an empty filtered TABLA 2
yields the no-data warning. -/
theorem C8_series_suppression (cs ms : String) (t2f t3f : List RowS) :
    (serieTiempo cs ms t2f t3f = SerieOut.suppressed ↔
      (cs ≠ "Todos" ∧ ms = "Todas")) ∧
    (¬(cs ≠ "Todos" ∧ ms = "Todas") →
      (t2f = [] → serieTiempo cs ms t2f t3f = SerieOut.sinDatos) ∧
      (t2f ≠ [] → ∃ pts, serieTiempo cs ms t2f t3f = SerieOut.chart pts)) := by
  by_cases h : cs ≠ "Todos" ∧ ms = "Todas"
  · constructor
    · rw [serieTiempo, if_pos h]
      simp [h]
    · intro hcontra
      exact absurd h hcontra
  · constructor
    · rw [serieTiempo, if_neg h]
      by_cases h2 : t2f.isEmpty
      · rw [if_pos h2]
        simp [h]
      · rw [if_neg h2]
        simp [h]
    · intro _
      constructor
      · intro h2
        rw [serieTiempo, if_neg h, if_pos (by simp [h2])]
      · intro h2
        rw [serieTiempo, if_neg h, if_neg (by simp [h2])]
        exact ⟨_, rfl⟩

/-- C8 witness: with cluster X selected and machine "Todas", the section is
suppressed even though TABLA 2 has data; with no cluster selected the
chart is rendered. -/
theorem C8_series_suppression_witness :
    serieTiempo "X" "Todas" [⟨"A", some 1, some 2⟩] [] = SerieOut.suppressed ∧
    (∃ pts, serieTiempo "Todos" "Todas" [⟨"A", some 1, some 2⟩] [] =
      SerieOut.chart pts) :=
  ⟨(C8_series_suppression "X" "Todas" [⟨"A", some 1, some 2⟩] []).1.mpr
      ⟨by decide, rfl⟩,
    ((C8_series_suppression "Todos" "Todas" [⟨"A", some 1, some 2⟩] []).2
      (by simp)).2 (by simp)⟩

/-- C5: the modal-cluster metric echoes a specifically selected cluster;
with no cluster selected it reports "Varios" for machine "Todas"; for a
specific machine it reports a most frequent cluster value of the filtered
TABLA 1 rows, and "Sin datos" when TABLA 1 lacks a cluster column or the
filtered view is empty. -/
theorem C5_modal_cluster_cases (cs ms : String) (hasCluster : Bool)
    (t1f : List Row1) :
    (cs ≠ "Todos" → clusterCat cs ms hasCluster t1f = cs) ∧
    (cs = "Todos" → ms = "Todas" → clusterCat cs ms hasCluster t1f = "Varios") ∧
    (cs = "Todos" → ms ≠ "Todas" → (hasCluster = false ∨ t1f = []) →
      clusterCat cs ms hasCluster t1f = "Sin datos") ∧
    (cs = "Todos" → ms ≠ "Todas" → hasCluster = true → t1f ≠ [] →
      ∃ m, clusterCat cs ms hasCluster t1f = m ∧ m ∈ clusterVals t1f ∧
        ∀ x, (clusterVals t1f).count x ≤ (clusterVals t1f).count m) := by
  refine ⟨?_, ?_, ?_, ?_⟩
  · intro hcs
    rw [clusterCat, if_pos hcs]
  · intro hcs hms
    subst hcs
    rw [clusterCat, if_neg (by simp), if_pos hms]
  · intro hcs hms hdeg
    subst hcs
    rw [clusterCat, if_neg (by simp), if_neg hms, if_neg ?_]
    rintro ⟨h1, h2⟩
    rcases hdeg with h | h
    · rw [h1] at h; cases h
    · exact h2 h
  · intro hcs hms hc hne
    subst hcs
    rw [clusterCat, if_neg (by simp), if_neg hms, if_pos ⟨hc, hne⟩]
    have hvals : clusterVals t1f ≠ [] := by
      simp [clusterVals, hne]
    rcases modeList_spec hvals with ⟨m, rest, hm, hmem, hmax⟩
    rw [hm]
    exact ⟨m, rfl, hmem, hmax⟩

/-- C5 witness: with no cluster selected and machine A selected on a
one-row filtered table whose cluster is X, the metric reports a most
frequent cluster value. -/
theorem C5_modal_cluster_cases_witness :
    ∃ m, clusterCat "Todos" "A" true [⟨"A", none, none, some "X"⟩] = m ∧
      m ∈ clusterVals [⟨"A", none, none, some "X"⟩] ∧
      ∀ x, (clusterVals [⟨"A", none, none, some "X"⟩]).count x ≤
        (clusterVals [⟨"A", none, none, some "X"⟩]).count m :=
  (C5_modal_cluster_cases "Todos" "A" true [⟨"A", none, none, some "X"⟩]).2.2.2
    rfl (by decide) rfl (by decide)

/-- C7: the mean-interval metric is "Sin datos" (`none`) exactly when the
filtered TABLA 2 is empty or every interval value in it is missing; when
it is a number, that number is the arithmetic mean of the non-missing
interval values. -/
theorem C7_mean_no_data (rows : List RowS) :
    (promTiempo rows = none ↔
      rows = [] ∨ rows.filterMap (fun r => r.valor) = []) ∧
    (∀ q, promTiempo rows = some q →
      rows.filterMap (fun r => r.valor) ≠ [] ∧
      q = (rows.filterMap (fun r => r.valor)).sum /
        ((rows.filterMap (fun r => r.valor)).length : ℚ)) := by
  constructor
  · by_cases h1 : rows = []
    · simp [promTiempo, h1]
    · by_cases h2 : rows.filterMap (fun r => r.valor) = []
      · simp [promTiempo, h1, h2]
      · simp [promTiempo, h1, h2]
  · intro q hq
    by_cases h1 : rows = []
    · rw [promTiempo] at hq
      simp [h1] at hq
    · by_cases h2 : rows.filterMap (fun r => r.valor) = []
      · rw [promTiempo] at hq
        simp [h1, h2] at hq
      · rw [promTiempo] at hq
        simp only [List.isEmpty_iff, h1, if_false, h2, Option.some.injEq] at hq
        exact ⟨h2, hq.symm⟩

/-- C7 witness: a filtered table whose only interval value is missing
yields "Sin datos", not a number. -/
theorem C7_mean_no_data_witness :
    promTiempo [⟨"A", some 1, none⟩] = none :=
  (C7_mean_no_data [⟨"A", some 1, none⟩]).1.mpr (Or.inr rfl)

/-- C9 counterexample: the claim says every chart series excludes missing
values, but only the value column is dropped (lines 307/314): a time-index
cell that fails coercion is loaded as missing, yet the actual series
retains the point with a missing time coordinate. -/
theorem C9_counterexample :
    loadRowS true ⟨some "a", RawNum.invalid "n-a", RawNum.val 2⟩ =
      (⟨"A", none, some 2⟩ : RowS) ∧
    serieReal [⟨"A", none, some 2⟩] = [(none, 2, "Real")] := by
  constructor
  · rfl
  · rfl

/-- C9 amended: a numeric cell that cannot be converted is coerced to a
missing value by the loader instead of an error; a row whose
interval/forecast value is missing is excluded from the mean metric, from
both chart series and from the box-plot data; a row with a missing
time-index but a present value is not excluded: both chart series retain
its point, with a missing time coordinate. -/
theorem C9_coercion_to_missing :
    (∀ s, toNumeric (RawNum.invalid s) = none) ∧
    (∀ (has : Bool) (rr : RawRowS),
      (loadRowS has rr).idx = toNumeric rr.idx ∧
      (loadRowS has rr).valor = toNumeric rr.valor) ∧
    (∀ (pre post : List RowS) (r : RowS), r.valor = none →
      promTiempo (pre ++ r :: post) = promTiempo (pre ++ post) ∧
      serieReal (pre ++ r :: post) = serieReal (pre ++ post) ∧
      serieFore (pre ++ r :: post) = serieFore (pre ++ post) ∧
      boxData (pre ++ r :: post) = boxData (pre ++ post)) ∧
    (∀ (pre post : List RowS) (r : RowS) (v : ℚ), r.valor = some v →
      serieReal (pre ++ r :: post) =
        serieReal pre ++ (r.idx, v, "Real") :: serieReal post ∧
      serieFore (pre ++ r :: post) =
        serieFore pre ++ (r.idx, v, "Prediccion") :: serieFore post) := by
  refine ⟨fun s => rfl, fun has rr => ⟨rfl, rfl⟩, ?_, ?_⟩
  · intro pre post r hr
    have hvals : (pre ++ r :: post).filterMap (fun r => r.valor) =
        (pre ++ post).filterMap (fun r => r.valor) := by
      simp [List.filterMap_append, List.filterMap_cons, hr]
    refine ⟨?_, ?_, ?_, ?_⟩
    · by_cases hpp : (pre ++ post) = []
      · rcases List.append_eq_nil.mp hpp with ⟨hpre, hpost⟩
        subst hpre; subst hpost
        simp [promTiempo, hr]
      · have hne : (pre ++ r :: post) ≠ [] := by simp
        rw [promTiempo, promTiempo]
        simp only [List.isEmpty_iff, hne, hpp, if_false, hvals]
    · simp [serieReal, List.filterMap_append, List.filterMap_cons, hr]
    · simp [serieFore, List.filterMap_append, List.filterMap_cons, hr]
    · simp [boxData, List.filterMap_append, List.filterMap_cons, hr]
  · intro pre post r v hr
    constructor
    · simp [serieReal, List.filterMap_append, List.filterMap_cons, hr]
    · simp [serieFore, List.filterMap_append, List.filterMap_cons, hr]

/-- C9 amended witness: removing a missing-valued row does not change the
mean metric, and a row with a missing time index but a present value keeps
its point in the actual series. -/
theorem C9_coercion_to_missing_witness :
    (promTiempo ([⟨"A", some 1, some 2⟩] ++ (⟨"B", some 2, none⟩ : RowS) :: []) =
      promTiempo ([⟨"A", some 1, some 2⟩] ++ [])) ∧
    serieReal ([] ++ (⟨"A", none, some 2⟩ : RowS) :: []) =
      serieReal [] ++ ((⟨"A", none, some 2⟩ : RowS).idx, 2, "Real") :: serieReal [] :=
  ⟨((C9_coercion_to_missing.2.2.1 [⟨"A", some 1, some 2⟩] [] ⟨"B", some 2, none⟩)
      rfl).1,
    (C9_coercion_to_missing.2.2.2 [] [] ⟨"A", none, some 2⟩ 2 rfl).1⟩

/-- C10: a missing machine cell is normalized at load time to the literal
string "NAN"; the selectable-machine computation does not drop it, so
"NAN" becomes a selectable option and matches the machine filter, while
the global top-machine KPI explicitly discards it. -/
theorem C10_nan_machine (rt : RawTablaS) (m2 : List String)
    (hhas : rt.hasMaquina = true)
    (hnone : ∃ rr ∈ rt.rows, rr.maquina = none)
    (hm2 : maqsS (loadTablaS rt) = Except.ok m2) :
    normMaquina none = "NAN" ∧
    "NAN" ∈ m2 ∧
    (∀ m1 m3, "NAN" ∈ maquinasOptions m1 m2 m3) ∧
    (∀ (rows : List RowS) (r : RowS) (t1f : List Row1) (t3rows : List RowS),
      r ∈ rows → r.maquina = "NAN" →
      r ∈ (machineStage (t1f, rows, t3rows) "NAN").2.1) ∧
    (∀ rows s, s ∈ cleanMachines rows → pyUpper s ≠ "NAN") := by
  have hnorm : normMaquina none = "NAN" := by decide
  have hmem : "NAN" ∈ m2 := by
    rw [maqsS, loadTablaS] at hm2
    simp only [hhas, if_true] at hm2
    cases hm2
    rcases hnone with ⟨rr, hrr, hrrnone⟩
    rw [mem_uniqueList]
    refine List.mem_map.mpr ⟨loadRowS true rr, List.mem_map.mpr ⟨rr, hrr, rfl⟩, ?_⟩
    simp [loadRowS, hrrnone, hnorm]
  refine ⟨hnorm, hmem, ?_, ?_, ?_⟩
  · intro m1 m3
    rw [maquinasOptions, List.mem_insertionSort, mem_uniqueList]
    simp [hmem]
  · intro rows r t1f t3rows hr hrnan
    rw [machineStage, if_pos (by decide)]
    exact List.mem_filter.mpr ⟨hr, by simp [hrnan]⟩
  · intro rows s hs
    have := (List.mem_filter.mp hs).2
    simp only [decide_eq_true_eq] at this
    exact this.2

/-- C10 witness: a concrete table 2 with one missing machine cell makes
"NAN" a machine-domain value and a selectable option. -/
theorem C10_nan_machine_witness :
    "NAN" ∈ ["NAN"] ∧ (∀ m1 m3, "NAN" ∈ maquinasOptions m1 ["NAN"] m3) :=
  ⟨(C10_nan_machine ⟨true, [⟨none, RawNum.missing, RawNum.missing⟩]⟩ ["NAN"]
      rfl ⟨⟨none, RawNum.missing, RawNum.missing⟩, by decide, rfl⟩ rfl).2.1,
    (C10_nan_machine ⟨true, [⟨none, RawNum.missing, RawNum.missing⟩]⟩ ["NAN"]
      rfl ⟨⟨none, RawNum.missing, RawNum.missing⟩, by decide, rfl⟩ rfl).2.2.1⟩

/-- C6 counterexample: the claim asserts the same winner for any row
permutation, but with machines A and B tied at two failures each the
winner follows first appearance: [A,B,B,A] elects A while its permutation
[B,A,A,B] elects B. -/
theorem C6_counterexample :
    List.Perm
      [(⟨"A", none, none, none⟩ : Row1), ⟨"B", none, none, none⟩,
        ⟨"B", none, none, none⟩, ⟨"A", none, none, none⟩]
      [⟨"B", none, none, none⟩, ⟨"A", none, none, none⟩,
        ⟨"A", none, none, none⟩, ⟨"B", none, none, none⟩] ∧
    kpiTopMachine
      [⟨"A", none, none, none⟩, ⟨"B", none, none, none⟩,
        ⟨"B", none, none, none⟩, ⟨"A", none, none, none⟩] ≠
    kpiTopMachine
      [⟨"B", none, none, none⟩, ⟨"A", none, none, none⟩,
        ⟨"A", none, none, none⟩, ⟨"B", none, none, none⟩] := by
  constructor
  · decide
  · decide

/-- C6 amended: the top-frequency-machine computation is stable under row
permutations in its reported count, and in its reported winner whenever
the most frequent valid machine is unique; with a tie at the top the
winner follows first appearance and may change under permutation. -/
theorem C6_top_machine_perm (rows1 rows2 : List Row1) (hperm : rows1.Perm rows2) :
    Option.map Prod.snd (kpiTopMachine rows1) =
      Option.map Prod.snd (kpiTopMachine rows2) ∧
    ((∃ u ∈ cleanMachines rows1, ∀ x ∈ cleanMachines rows1, x ≠ u →
        (cleanMachines rows1).count x < (cleanMachines rows1).count u) →
      kpiTopMachine rows1 = kpiTopMachine rows2) := by
  have hclean : (cleanMachines rows1).Perm (cleanMachines rows2) :=
    ((hperm.map _).map _).filter _
  have hvc := valueCounts_perm hclean
  by_cases h1 : rows1 = []
  · subst h1
    have h2 : rows2 = [] := hperm.symm.eq_nil
    subst h2
    exact ⟨rfl, fun _ => rfl⟩
  · have h2 : rows2 ≠ [] := fun hnil => h1 ((hnil ▸ hperm).eq_nil)
    have hconteo : (conteoGlobal rows1).Perm (conteoGlobal rows2) :=
      ((List.perm_insertionSort cntGe _).trans hvc).trans
        (List.perm_insertionSort cntGe _).symm
    rcases hc1 : conteoGlobal rows1 with _ | ⟨t1, r1⟩
    · have hc2 : conteoGlobal rows2 = [] := by
        rw [hc1] at hconteo
        exact hconteo.symm.eq_nil
      simp [kpiTopMachine, List.isEmpty_iff, h1, h2, hc1, hc2]
    · rcases hc2 : conteoGlobal rows2 with _ | ⟨t2, r2⟩
      · exfalso
        rw [hc1, hc2] at hconteo
        exact absurd hconteo.eq_nil (by simp)
      have hmax : maxNat ((t1 :: r1).map Prod.snd) =
          maxNat ((t2 :: r2).map Prod.snd) := by
        apply maxNat_perm
        have h := hconteo
        rw [hc1, hc2] at h
        exact h.map Prod.snd
      constructor
      · have hmax2 := hmax
        rw [List.map_cons, List.map_cons] at hmax2
        simp [kpiTopMachine, List.isEmpty_iff, h1, h2, hc1, hc2, hmax2]
      · rintro ⟨u, hu, hstrict⟩
        have huvc1 : (u, (cleanMachines rows1).count u) ∈
            valueCounts (cleanMachines rows1) := mem_valueCounts.mpr ⟨hu, rfl⟩
        have hsort1 : List.insertionSort cntGe (valueCounts (cleanMachines rows1)) =
            t1 :: r1 := hc1
        have ht1vc : t1 ∈ valueCounts (cleanMachines rows1) := by
          have : t1 ∈ t1 :: r1 := List.mem_cons_self t1 r1
          rw [← hsort1] at this
          exact (List.mem_insertionSort cntGe).mp this
        rcases mem_valueCounts.mp ht1vc with ⟨ht1mem, ht1cnt⟩
        have hle1 : (cleanMachines rows1).count u ≤ t1.2 :=
          head_insertionSort_max hsort1 _ huvc1
        have ht1u : t1.1 = u := by
          by_contra hne
          have := hstrict t1.1 ht1mem hne
          rw [← ht1cnt] at this
          omega
        have hu2 : u ∈ cleanMachines rows2 := hclean.mem_iff.mp hu
        have hstrict2 : ∀ x ∈ cleanMachines rows2, x ≠ u →
            (cleanMachines rows2).count x < (cleanMachines rows2).count u := by
          intro x hx hxu
          rw [← hclean.count_eq, ← hclean.count_eq]
          exact hstrict x (hclean.mem_iff.mpr hx) hxu
        have huvc2 : (u, (cleanMachines rows2).count u) ∈
            valueCounts (cleanMachines rows2) := mem_valueCounts.mpr ⟨hu2, rfl⟩
        have hsort2 : List.insertionSort cntGe (valueCounts (cleanMachines rows2)) =
            t2 :: r2 := hc2
        have ht2vc : t2 ∈ valueCounts (cleanMachines rows2) := by
          have : t2 ∈ t2 :: r2 := List.mem_cons_self t2 r2
          rw [← hsort2] at this
          exact (List.mem_insertionSort cntGe).mp this
        rcases mem_valueCounts.mp ht2vc with ⟨ht2mem, ht2cnt⟩
        have hle2 : (cleanMachines rows2).count u ≤ t2.2 :=
          head_insertionSort_max hsort2 _ huvc2
        have ht2u : t2.1 = u := by
          by_contra hne
          have := hstrict2 t2.1 ht2mem hne
          rw [← ht2cnt] at this
          omega
        simp only [kpiTopMachine, List.isEmpty_iff, h1, h2, if_false, hc1, hc2]
        rw [ht1u, ht2u, hmax]

/-- C6 amended witness: with a unique most frequent machine the winner and
count survive a row permutation. -/
theorem C6_top_machine_perm_witness :
    kpiTopMachine
      [(⟨"A", none, none, none⟩ : Row1), ⟨"B", none, none, none⟩,
        ⟨"A", none, none, none⟩] =
    kpiTopMachine
      [⟨"B", none, none, none⟩, ⟨"A", none, none, none⟩,
        ⟨"A", none, none, none⟩] :=
  (C6_top_machine_perm
    [⟨"A", none, none, none⟩, ⟨"B", none, none, none⟩, ⟨"A", none, none, none⟩]
    [⟨"B", none, none, none⟩, ⟨"A", none, none, none⟩, ⟨"A", none, none, none⟩]
    (by decide)).2 (by decide)

/-- C3 counterexample: the claim says a missing optional machine column in
any of the three tables is tolerated, but with TABLA 2 lacking its machine
column the unconditional `tabla2["Maquina"]` access of the machine-domain
computation (line 135) raises a `KeyError` and rendering fails. -/
theorem C3_counterexample :
    dashboard ⟨true, true, true, true, []⟩ ⟨false, []⟩ ⟨true, []⟩
      "Todos" "Todas" = Except.error "KeyError: Maquina" := rfl

/-- C3 amended: only the cluster column of TABLA 1 is optional: whenever
the three machine columns are present the dashboard renders without error
for every selection, with or without a cluster column (the cluster feature
merely degrades); a missing machine column makes rendering fail. -/
theorem C3_column_tolerance (rt1 : RawTabla1) (rt2 rt3 : RawTablaS)
    (cs ms : String) (h1 : rt1.hasMaquina = true) (h2 : rt2.hasMaquina = true)
    (h3 : rt3.hasMaquina = true) :
    ∃ out, dashboard rt1 rt2 rt3 cs ms = Except.ok out := by
  rcases hl1 : loadTabla1 rt1 with e | tabla1
  · rw [loadTabla1, if_pos h1] at hl1
    cases hl1
  rcases hl2 : maqsS (loadTablaS rt2) with e | m2
  · rw [maqsS] at hl2
    simp [loadTablaS, h2] at hl2
  rcases hl3 : maqsS (loadTablaS rt3) with e | m3
  · rw [maqsS] at hl3
    simp [loadTablaS, h3] at hl3
  simp only [dashboard, hl1, hl2, hl3]
  exact ⟨_, rfl⟩

/-- C3 amended witness: a concrete session without a cluster column still
renders. -/
theorem C3_column_tolerance_witness :
    ∃ out, dashboard ⟨true, false, true, true, [⟨some "a", none, none, none⟩]⟩
      ⟨true, [⟨some "a", RawNum.val 1, RawNum.val 2⟩]⟩ ⟨true, []⟩
      "Todos" "Todas" = Except.ok out :=
  C3_column_tolerance _ _ _ "Todos" "Todas" rfl rfl rfl

end Mantenimiento
